import Mathlib

/-!
# Verification of the INWX external-dns webhook reconciliation engine

A shallow embedding, in Lean 4, of the reconciliation logic of the
`external-dns-inwx-webhook` provider (Go), together with theorems checking
its natural-language specification.

Go strings are modelled as `List Char` (all relevant data is ASCII).
Machine integers hold small TTLs / error codes, so they are modelled as `Int`.
The registrar client (an interface in Go) is modelled as a record of
state-passing operations; the in-memory mock client from the repository is
one instance, a pure response function is another.
-/

set_option autoImplicit false
set_option linter.unnecessarySeqFocus false
set_option linter.unusedVariables false

namespace Inwx

/-- Go strings, modelled as lists of characters. -/
abbrev GoStr := List Char

/-- Go `strings.HasSuffix s suffix`. -/
def hasSuffix (s suffix : GoStr) : Bool :=
  suffix.isSuffixOf s

/-- Go `strings.TrimSuffix s suffix`: drops `suffix` from the end of `s` when present. -/
def trimSuffix (s suffix : GoStr) : GoStr :=
  if hasSuffix s suffix then s.take (s.length - suffix.length) else s

/-- Go `strings.Split s "."`: splits on every dot; the empty string yields `[""]`. -/
def splitOnDot : GoStr → List GoStr
  | [] => [[]]
  | c :: rest =>
    if c = '.' then [] :: splitOnDot rest
    else
      match splitOnDot rest with
      | [] => [[c]]
      | h :: t => (c :: h) :: t

/-- Go `strings.Join parts "."`. -/
def joinDots : List GoStr → GoStr
  | [] => []
  | [s] => s
  | s :: rest => s ++ '.' :: joinDots rest

/-- Type `inwx.NameserverRecord`: one remote record inside a zone (fields used by the engine). -/
structure NameserverRecord where
  id : GoStr
  name : GoStr
  type : GoStr
  content : GoStr
  ttl : Int
  priority : Int
  deriving DecidableEq, Repr

/-- Type `inwx.NameserverRecordRequest`: the payload of a create/update call. -/
structure RecordRequest where
  domain : GoStr
  name : GoStr
  type : GoStr
  ttl : Int
  content : GoStr
  priority : Int
  deriving DecidableEq, Repr

/-- Type `endpoint.Endpoint`: one desired-state entry (fields used by the engine). -/
structure Endpoint where
  dnsName : GoStr
  recordType : GoStr
  targets : List GoStr
  recordTTL : Int
  deriving DecidableEq, Repr

/-- Type `plan.Changes`: the batch handed to one reconciliation pass. -/
structure Changes where
  create : List Endpoint
  delete : List Endpoint
  updateOld : List Endpoint
  updateNew : List Endpoint
  deriving DecidableEq, Repr

/-! ## Name Resolver: `extractRecordName` and `getZone` -/

/-- The trailing-label comparison loop of `extractRecordName`: how many trailing
labels get stripped, given the REVERSED name labels, the REVERSED zone labels
and the cap `len(nameLabels) - 1` from the loop condition
`stripped < len(zoneLabels) && stripped < len(nameLabels)-1`. -/
def stripCount : List GoStr → List GoStr → Nat → Nat
  | _, _, 0 => 0
  | [], _, _ + 1 => 0
  | _ :: _, [], _ + 1 => 0
  | n :: ns, z :: zs, cap + 1 =>
    if n = z then stripCount ns zs cap + 1 else 0

/-- Function `extractRecordName` (provider.go): computes the INWX record name from a full
DNS name and its zone, stripping the `"." + zone` suffix and then trailing
labels that duplicate trailing labels of the zone. -/
def extractRecordName (dnsName zone : GoStr) : GoStr :=
  if dnsName = zone then []
  else
    let name := trimSuffix dnsName ('.' :: zone)
    let nameLabels := splitOnDot name
    let zoneLabels := splitOnDot zone
    let stripped := stripCount nameLabels.reverse zoneLabels.reverse (nameLabels.length - 1)
    if stripped > 0 then joinDots (nameLabels.take (nameLabels.length - stripped))
    else name

/-- The dot-boundary zone match of `getZone`:
`endpoint.DNSName == zone || strings.HasSuffix(endpoint.DNSName, "."+zone)`. -/
def dotMatch (dnsName zone : GoStr) : Bool :=
  dnsName = zone || hasSuffix dnsName ('.' :: zone)

/-- The hyphen-boundary fallback match of `getZone`:
`strings.HasSuffix(endpoint.DNSName, "-"+zone)`. -/
def hyphenMatch (dnsName zone : GoStr) : Bool :=
  hasSuffix dnsName ('-' :: zone)

/-- One pass of `getZone`'s selection loop: keep the current best match,
replacing it whenever a zone matches and is strictly longer. -/
def selectLongest (p : GoStr → Bool) : List GoStr → GoStr → GoStr
  | [], best => best
  | z :: rest, best =>
    selectLongest p rest (if p z && best.length < z.length then z else best)

/-- Function `getZone` (provider.go): longest dot-boundary zone match, then a
hyphen-boundary second pass, otherwise an error carrying the endpoint. -/
def getZone (zones : List GoStr) (ep : Endpoint) : Except Endpoint GoStr :=
  let m1 := selectLongest (dotMatch ep.dnsName) zones []
  if m1 = [] then
    let m2 := selectLongest (hyphenMatch ep.dnsName) zones []
    if m2 = [] then .error ep else .ok m2
  else .ok m1

/-! ## Record Matcher: `getRecIDs`, `findRecordsByNameAndType`, `findExactRecord` -/

/-- Whether a remote record matches one endpoint target in `getRecIDs`:
`ep.RecordType == record.Type && target == record.Content && record.Name == targetName`. -/
def recMatches (recordType targetName target : GoStr) (r : NameserverRecord) : Bool :=
  recordType = r.type && target = r.content && r.name = targetName

/-- Function `getRecIDs` (provider.go): for each target in order, append the IDs of all
matching records; fail when the total count differs from the target count. -/
def getRecIDs (zone : GoStr) (records : List NameserverRecord) (ep : Endpoint) :
    Except Unit (List GoStr) :=
  let targetName := extractRecordName ep.dnsName zone
  let recIDs := ep.targets.foldl
    (fun acc target =>
      records.foldl
        (fun acc2 r => if recMatches ep.recordType targetName target r then acc2 ++ [r.id] else acc2)
        acc)
    []
  if recIDs.length ≠ ep.targets.length then .error () else .ok recIDs

/-- Function `findRecordsByNameAndType` (provider.go): all records of the snapshot whose
type and resolved name match, in snapshot order. -/
def findRecordsByNameAndType (zone : GoStr) (records : List NameserverRecord)
    (dnsName recordType : GoStr) : List NameserverRecord :=
  let targetName := extractRecordName dnsName zone
  records.filter (fun r => recordType = r.type && r.name = targetName)

/-- Function `findExactRecord` (provider.go): the ID of the first record with the given
content, or the empty string. -/
def findExactRecord (records : List NameserverRecord) (content : GoStr) : GoStr :=
  match records.find? (fun r => r.content = content) with
  | some r => r.id
  | none => []

/-! ## The registrar client capability -/

/-- A registrar error. `apiCode = some c` models `*inwx.ErrorResponse` with
code `c`; `apiCode = none` models any other error value. -/
structure GoErr where
  apiCode : Option Int
  deriving DecidableEq, Repr

/-- Function `isObjectExistsError` (provider.go): an INWX API error with code 2302. -/
def isObjectExistsError (e : GoErr) : Bool :=
  e.apiCode = some 2302

/-- The `AbstractClientWrapper` interface, as state-passing operations over a
client state `σ`. Mutating calls return `some e` on failure. `login`/`logout`
session handling is outside the reconciliation algorithms under study and is
modelled as always succeeding. -/
structure ClientOps (σ : Type) where
  getZones : σ → Except GoErr (List GoStr) × σ
  getRecords : σ → GoStr → Except GoErr (List NameserverRecord) × σ
  createRecord : σ → RecordRequest → Option GoErr × σ
  updateRecord : σ → GoStr → RecordRequest → Option GoErr × σ
  deleteRecord : σ → GoStr → Option GoErr × σ

/-- A registrar call issued by the engine (the observable trace). -/
inductive Op where
  | create (req : RecordRequest)
  | update (id : GoStr) (req : RecordRequest)
  | delete (id : GoStr)
  deriving DecidableEq, Repr

/-- One entry of the `errs` slice accumulated by `ApplyChanges`. -/
inductive PassError where
  | zoneNotFound (ep : Endpoint)
  | clientErr (e : GoErr)
  | mappingFailed
  deriving DecidableEq, Repr

/-- The running state of one reconciliation pass: client state, the per-phase
`recordsCache`, the accumulated `errs`, and the trace of issued calls. -/
structure PassState (σ : Type) where
  client : σ
  cache : List (GoStr × List NameserverRecord)
  errs : List PassError
  trace : List Op

/-- Look up a zone in the phase cache (`recordsCache[zone]`). -/
def cacheLookup (cache : List (GoStr × List NameserverRecord)) (zone : GoStr) :
    Option (List NameserverRecord) :=
  match cache.find? (fun p => p.1 = zone) with
  | some p => some p.2
  | none => none

/-- The lazy cache fill of each phase: return the cached snapshot, or fetch it
via `getRecords`, recording the error (and `continue`-ing) on failure. -/
def ensureZone {σ : Type} (C : ClientOps σ) (st : PassState σ) (zone : GoStr) :
    Option (List NameserverRecord) × PassState σ :=
  match cacheLookup st.cache zone with
  | some recs => (some recs, st)
  | none =>
    match C.getRecords st.client zone with
    | (.ok recs, s') =>
      (some recs, { st with client := s', cache := st.cache ++ [(zone, recs)] })
    | (.error e, s') =>
      (none, { st with client := s', errs := st.errs ++ [.clientErr e] })

/-- Issue `createRecord`, swallowing the "object exists" (code 2302) failure
and recording any other failure. -/
def doCreate {σ : Type} (C : ClientOps σ) (st : PassState σ) (req : RecordRequest) :
    PassState σ :=
  match C.createRecord st.client req with
  | (none, s') => { st with client := s', trace := st.trace ++ [.create req] }
  | (some e, s') =>
    if isObjectExistsError e then { st with client := s', trace := st.trace ++ [.create req] }
    else { st with client := s', trace := st.trace ++ [.create req], errs := st.errs ++ [.clientErr e] }

/-- Issue `updateRecord`, recording any failure. -/
def doUpdate {σ : Type} (C : ClientOps σ) (st : PassState σ) (id : GoStr)
    (req : RecordRequest) : PassState σ :=
  match C.updateRecord st.client id req with
  | (none, s') => { st with client := s', trace := st.trace ++ [.update id req] }
  | (some e, s') =>
    { st with client := s', trace := st.trace ++ [.update id req], errs := st.errs ++ [.clientErr e] }

/-- Issue `deleteRecord`, recording any failure. -/
def doDelete {σ : Type} (C : ClientOps σ) (st : PassState σ) (id : GoStr) :
    PassState σ :=
  match C.deleteRecord st.client id with
  | (none, s') => { st with client := s', trace := st.trace ++ [.delete id] }
  | (some e, s') =>
    { st with client := s', trace := st.trace ++ [.delete id], errs := st.errs ++ [.clientErr e] }

/-! ## Phase Delete -/

/-- One endpoint of the Delete phase (provider.go, `changes.Delete` loop). -/
def applyDeleteEndpoint {σ : Type} (C : ClientOps σ) (zones : List GoStr)
    (st : PassState σ) (ep : Endpoint) : PassState σ :=
  match getZone zones ep with
  | .error _ => { st with errs := st.errs ++ [.zoneNotFound ep] }
  | .ok zone =>
    match ensureZone C st zone with
    | (none, st') => st'
    | (some recs, st') =>
      match getRecIDs zone recs ep with
      | .error _ => { st' with errs := st'.errs ++ [.mappingFailed] }
      | .ok recIDs => recIDs.foldl (fun s id => doDelete C s id) st'

/-! ## Phase Create -/

/-- The per-target body of the Create phase (provider.go lines 151-190):
skip on an exact content match, update in place the unique same-name/type
record of a single-target endpoint, otherwise create. -/
def applyCreateTarget {σ : Type} (C : ClientOps σ) (zone : GoStr) (name : GoStr)
    (cacheRecs : List NameserverRecord) (ep : Endpoint) (st : PassState σ)
    (target : GoStr) : PassState σ :=
  let existing := findRecordsByNameAndType zone cacheRecs ep.dnsName ep.recordType
  let req : RecordRequest := ⟨zone, name, ep.recordType, ep.recordTTL, target, 0⟩
  if findExactRecord existing target ≠ [] then st
  else if existing.length = 1 ∧ ep.targets.length = 1 then
    match existing with
    | e :: _ => doUpdate C st e.id req
    | [] => doCreate C st req
  else doCreate C st req

/-- One endpoint of the Create phase. -/
def applyCreateEndpoint {σ : Type} (C : ClientOps σ) (zones : List GoStr)
    (st : PassState σ) (ep : Endpoint) : PassState σ :=
  match getZone zones ep with
  | .error _ => { st with errs := st.errs ++ [.zoneNotFound ep] }
  | .ok zone =>
    match ensureZone C st zone with
    | (none, st') => st'
    | (some recs, st') =>
      let name := extractRecordName ep.dnsName zone
      ep.targets.foldl (fun s target => applyCreateTarget C zone name recs ep s target) st'

/-! ## Phase Update -/

/-- The fallback (upsert) loop of the Update phase (provider.go lines 217-238):
for each new target, skip on an exact content match, otherwise create with the
NEW endpoint's TTL, swallowing the "object exists" failure. -/
def updateFallback {σ : Type} (C : ClientOps σ) (zone name : GoStr)
    (cacheRecs : List NameserverRecord) (newEp : Endpoint) (st : PassState σ) :
    PassState σ :=
  let existing := findRecordsByNameAndType zone cacheRecs newEp.dnsName newEp.recordType
  newEp.targets.foldl
    (fun s target =>
      if findExactRecord existing target ≠ [] then s
      else doCreate C s ⟨zone, name, newEp.recordType, newEp.recordTTL, target, 0⟩)
    st

/-- One index of the paired Update loop (provider.go lines 242-279):
delete when the old target has no replacement, create (new TTL) when the new
target has no old counterpart, otherwise update in place (OLD TTL). -/
def pairedStep {σ : Type} (C : ClientOps σ) (zone name : GoStr)
    (oldEp newEp : Endpoint) (recIDs : List GoStr) (st : PassState σ) (j : Nat) :
    PassState σ :=
  if j ≥ newEp.targets.length then
    doDelete C st (recIDs.getD j [])
  else if j ≥ oldEp.targets.length then
    doCreate C st ⟨zone, name, newEp.recordType, newEp.recordTTL, newEp.targets.getD j [], 0⟩
  else
    doUpdate C st (recIDs.getD j [])
      ⟨zone, name, newEp.recordType, oldEp.recordTTL, newEp.targets.getD j [], 0⟩

/-- One `(old, new)` pair of the Update phase. -/
def applyUpdatePair {σ : Type} (C : ClientOps σ) (zones : List GoStr)
    (st : PassState σ) (oldEp newEp : Endpoint) : PassState σ :=
  match getZone zones oldEp with
  | .error _ => { st with errs := st.errs ++ [.zoneNotFound oldEp] }
  | .ok zone =>
    match ensureZone C st zone with
    | (none, st') => st'
    | (some recs, st') =>
      let name := extractRecordName newEp.dnsName zone
      match getRecIDs zone recs oldEp with
      | .error _ => updateFallback C zone name recs newEp st'
      | .ok recIDs =>
        let n := max (max oldEp.targets.length newEp.targets.length) recIDs.length
        (List.range n).foldl (fun s j => pairedStep C zone name oldEp newEp recIDs s j) st'

/-! ## `ApplyChanges` and `Records` -/

/-- Method `plan.Changes.HasChanges`: whether the batch holds any change at all. -/
def hasChanges (changes : Changes) : Bool :=
  !changes.create.isEmpty || !changes.delete.isEmpty ||
    !changes.updateOld.isEmpty || !changes.updateNew.isEmpty

/-- The outcome of `ApplyChanges`. -/
inductive ApplyResult where
  | ok
  | clientFailed (e : GoErr)
  | aggregate (n : Nat)
  deriving DecidableEq, Repr

/-- Method `ApplyChanges` (provider.go): no-op short circuit, zone listing, then the
Delete, Create and Update phases, each on a fresh `recordsCache`, returning an
aggregate failure counting the accumulated errors. -/
def applyChanges {σ : Type} (C : ClientOps σ) (s : σ) (changes : Changes) :
    ApplyResult × PassState σ :=
  if !hasChanges changes then (.ok, ⟨s, [], [], []⟩)
  else
    match C.getZones s with
    | (.error e, s') => (.clientFailed e, ⟨s', [], [], []⟩)
    | (.ok zones, s') =>
      let st0 : PassState σ := ⟨s', [], [], []⟩
      let st1 := changes.delete.foldl (fun st ep => applyDeleteEndpoint C zones st ep) st0
      let st2 := changes.create.foldl (fun st ep => applyCreateEndpoint C zones st ep)
        { st1 with cache := [] }
      let st3 := (changes.updateOld.zip changes.updateNew).foldl
        (fun st pair => applyUpdatePair C zones st pair.1 pair.2)
        { st2 with cache := [] }
      if st3.errs.length > 0 then (.aggregate st3.errs.length, st3) else (.ok, st3)

/-- The endpoint built by `Records` from one remote record:
`endpoint.NewEndpointWithTTL(fmt.Sprintf("%s.%s", rec.Name, zone), rec.Type,
endpoint.TTL(rec.TTL), rec.Content)`. -/
def recordEndpoint (zone : GoStr) (r : NameserverRecord) : Endpoint :=
  ⟨r.name ++ '.' :: zone, r.type, [r.content], r.ttl⟩

/-- The per-zone accumulation loop of `Records`. -/
def recordsLoop {σ : Type} (C : ClientOps σ) :
    List GoStr → σ → List Endpoint → Except GoErr (List Endpoint) × σ
  | [], s, acc => (.ok acc, s)
  | zone :: rest, s, acc =>
    match C.getRecords s zone with
    | (.error e, s') => (.error e, s')
    | (.ok recs, s') =>
      recordsLoop C rest s' (acc ++ recs.map (fun r => recordEndpoint zone r))

/-- Method `Records` (provider.go): lists every zone's records and turns each remote
record into one single-target endpoint. -/
def listRecords {σ : Type} (C : ClientOps σ) (s : σ) :
    Except GoErr (List Endpoint) × σ :=
  match C.getZones s with
  | (.error e, s') => (.error e, s')
  | (.ok zones, s') => recordsLoop C zones s' []

/-! ## The in-memory mock client (`mock_client_wrapper.go`) -/

/-- The state of `MockClientWrapper`: the per-zone record store (tombstoned
records keep their slot with an empty ID) and the ID-to-zone index. -/
structure MockState where
  db : List (GoStr × List NameserverRecord)
  idToZone : List (GoStr × GoStr)
  deriving DecidableEq, Repr

/-- Association-list lookup, mirroring Go map indexing. -/
def assocFind {α : Type} (l : List (GoStr × α)) (k : GoStr) : Option α :=
  match l.find? (fun p => p.1 = k) with
  | some p => some p.2
  | none => none

/-- Association-list store, mirroring Go map assignment. -/
def assocStore {α : Type} (l : List (GoStr × α)) (k : GoStr) (v : α) :
    List (GoStr × α) :=
  if (l.find? (fun p => p.1 = k)).isSome then
    l.map (fun p => if p.1 = k then (k, v) else p)
  else l ++ [(k, v)]

/-- Mock `getRecords`: the zone's records with tombstones (`ID == ""`) filtered
out, or an error for an unknown zone. -/
def mockGetRecords (m : MockState) (zone : GoStr) :
    Except GoErr (List NameserverRecord) × MockState :=
  match assocFind m.db zone with
  | none => (.error ⟨none⟩, m)
  | some recs => (.ok (recs.filter (fun r => r.id ≠ [])), m)

/-- Mock `getZones`: the keys of the record store. -/
def mockGetZones (m : MockState) : Except GoErr (List GoStr) × MockState :=
  (.ok (m.db.map (fun p => p.1)), m)

/-- Mock `createRecord`: appends a record whose ID is the decimal rendering of
the store's current length (`strconv.Itoa(len(*recs))`). -/
def mockCreateRecord (m : MockState) (r : RecordRequest) :
    Option GoErr × MockState :=
  match assocFind m.db r.domain with
  | none => (some ⟨none⟩, m)
  | some recs =>
    let id := (Nat.repr recs.length).toList
    let newRecs := recs ++ [⟨id, r.name, r.type, r.content, r.ttl, r.priority⟩]
    (none, ⟨assocStore m.db r.domain newRecs, assocStore m.idToZone id r.domain⟩)

/-- Mock `updateRecord`: replaces in place the record with the given ID. -/
def mockUpdateRecord (m : MockState) (recID : GoStr) (r : RecordRequest) :
    Option GoErr × MockState :=
  match assocFind m.db r.domain with
  | none => (some ⟨none⟩, m)
  | some recs =>
    if (recs.find? (fun rec => rec.id = recID)).isSome then
      let newRecs := recs.map (fun rec =>
        if rec.id = recID then ⟨recID, r.name, r.type, r.content, r.ttl, r.priority⟩ else rec)
      (none, { m with db := assocStore m.db r.domain newRecs })
    else (some ⟨none⟩, m)

/-- Mock `deleteRecord`: tombstones the record (ID set to `""`), failing when
the ID is unknown or already deleted. -/
def mockDeleteRecord (m : MockState) (recID : GoStr) : Option GoErr × MockState :=
  match assocFind m.idToZone recID with
  | none => (some ⟨none⟩, m)
  | some zone =>
    match assocFind m.db zone with
    | none => (some ⟨none⟩, m)
    | some recs =>
      match recs.find? (fun rec => rec.id = recID) with
      | none => (some ⟨none⟩, m)
      | some _ =>
        if recID = [] then (some ⟨none⟩, m)
        else
          let newRecs := recs.map (fun rec => if rec.id = recID then { rec with id := [] } else rec)
          (none, { m with db := assocStore m.db zone newRecs })

/-- The mock client as a `ClientOps` instance. -/
def mockClient : ClientOps MockState :=
  ⟨mockGetZones, mockGetRecords, mockCreateRecord, mockUpdateRecord, mockDeleteRecord⟩

/-- A stateless client built from pure response functions, used to explore the
engine's behaviour under arbitrary registrar responses. -/
def pureClient (fz : Except GoErr (List GoStr))
    (fr : GoStr → Except GoErr (List NameserverRecord))
    (fc : RecordRequest → Option GoErr)
    (fu : GoStr → RecordRequest → Option GoErr)
    (fd : GoStr → Option GoErr) : ClientOps Unit :=
  ⟨fun s => (fz, s), fun s z => (fr z, s), fun s r => (fc r, s),
    fun s i r => (fu i r, s), fun s i => (fd i, s)⟩

/-! ## Specification-level descriptions used by the theorems -/

/-- The records of a snapshot matching one endpoint target: equal type, equal
resolved record name, equal content (the spec's matching condition). -/
def matchingRecords (zone : GoStr) (records : List NameserverRecord) (ep : Endpoint)
    (target : GoStr) : List NameserverRecord :=
  records.filter (recMatches ep.recordType (extractRecordName ep.dnsName zone) target)

/-- The identifiers collected by the matcher, in target order: for each target
in order, the IDs of its matching records in snapshot order. -/
def collectRecIDs (zone : GoStr) (records : List NameserverRecord) (ep : Endpoint) :
    List GoStr :=
  ep.targets.flatMap (fun t => (matchingRecords zone records ep t).map (fun r => r.id))

/-! ## Lemmas about the matcher -/

theorem foldl_ids_eq (records : List NameserverRecord) (p : NameserverRecord → Bool)
    (acc : List GoStr) :
    records.foldl (fun acc2 r => if p r then acc2 ++ [r.id] else acc2) acc
      = acc ++ (records.filter p).map (fun r => r.id) := by
  induction records generalizing acc with
  | nil => simp
  | cons r rs ih =>
    by_cases h : p r = true
    · simp [List.filter_cons, h, ih]
    · simp only [Bool.not_eq_true] at h
      simp [List.filter_cons, h, ih]

theorem foldl_collect_eq (records : List NameserverRecord) (rt tn : GoStr) :
    ∀ (ts : List GoStr) (acc : List GoStr),
      ts.foldl (fun acc target => records.foldl
        (fun acc2 r => if recMatches rt tn target r then acc2 ++ [r.id] else acc2) acc) acc
        = acc ++ ts.flatMap (fun t => (records.filter (recMatches rt tn t)).map (fun r => r.id)) := by
  intro ts
  induction ts with
  | nil => simp
  | cons t ts ih =>
    intro acc
    rw [List.foldl_cons, foldl_ids_eq, ih, List.flatMap_cons, List.append_assoc]

theorem getRecIDs_eq_collect (zone : GoStr) (records : List NameserverRecord)
    (ep : Endpoint) :
    getRecIDs zone records ep =
      (if (collectRecIDs zone records ep).length ≠ ep.targets.length then Except.error ()
       else Except.ok (collectRecIDs zone records ep)) := by
  simp only [getRecIDs, foldl_collect_eq, List.nil_append, collectRecIDs, matchingRecords]

theorem flatMap_length_le {α β : Type} (f : α → List β) :
    ∀ l : List α, (∀ x ∈ l, (f x).length ≤ 1) → (l.flatMap f).length ≤ l.length := by
  intro l
  induction l with
  | nil => simp
  | cons x xs ih =>
    intro h
    have hx := h x (by simp)
    have hxs := ih (fun y hy => h y (by simp [hy]))
    simp only [List.flatMap_cons, List.length_append, List.length_cons]
    omega

theorem flatMap_length_lt {α β : Type} (f : α → List β) :
    ∀ l : List α, (∀ x ∈ l, (f x).length ≤ 1) → (∃ x ∈ l, f x = []) →
      (l.flatMap f).length < l.length := by
  intro l
  induction l with
  | nil => simp
  | cons x xs ih =>
    intro h hex
    have hxs : (xs.flatMap f).length ≤ xs.length :=
      flatMap_length_le f xs (fun y hy => h y (by simp [hy]))
    rcases hex with ⟨y, hy, hfy⟩
    rcases List.mem_cons.mp hy with rfl | hy'
    · simp only [List.flatMap_cons, List.length_append, List.length_cons, hfy]
      simpa using Nat.lt_succ_of_le hxs
    · have : (xs.flatMap f).length < xs.length :=
        ih (fun z hz => h z (by simp [hz])) ⟨y, hy', hfy⟩
      have hx := h x (by simp)
      simp only [List.flatMap_cons, List.length_append, List.length_cons]
      omega

/-! ## Claim C1 -/

def c1zone : GoStr := "baz.org".toList

def c1recs : List NameserverRecord :=
  [⟨"20".toList, "foo".toList, "A".toList, "5.5.5.5".toList, 0, 0⟩,
   ⟨"21".toList, "foo".toList, "A".toList, "5.5.5.5".toList, 0, 0⟩]

def c1ep : Endpoint :=
  ⟨"foo.baz.org".toList, "A".toList, ["1.1.1.1".toList, "5.5.5.5".toList], 0⟩

/-- C1 (counterexample): a target with NO matching record does not always make
`getRecIDs` fail — a duplicate match on another target masks the gap, because
only the total count is checked. Target `1.1.1.1` has no matching record, yet
the call succeeds (returning the two IDs matched by `5.5.5.5`). -/
theorem getRecIDs_gap_masked_by_duplicate :
    "1.1.1.1".toList ∈ c1ep.targets ∧
    matchingRecords c1zone c1recs c1ep "1.1.1.1".toList = [] ∧
    getRecIDs c1zone c1recs c1ep = .ok ["20".toList, "21".toList] :=
  ⟨by decide, by decide, by rfl⟩

/-- C1 (amended): `getRecIDs` returns, in target order, the IDs of all records
matching each target, and fails exactly when the total number collected differs
from the number of targets; when every target matches at most one record
(in particular under the zone's (name, type, content) uniqueness invariant),
it fails whenever at least one target has no matching record. -/
theorem getRecIDs_spec (zone : GoStr) (records : List NameserverRecord) (ep : Endpoint) :
    (getRecIDs zone records ep =
      (if (collectRecIDs zone records ep).length ≠ ep.targets.length then Except.error ()
       else Except.ok (collectRecIDs zone records ep))) ∧
    ((∀ t ∈ ep.targets, (matchingRecords zone records ep t).length ≤ 1) →
     (∃ t ∈ ep.targets, matchingRecords zone records ep t = []) →
     getRecIDs zone records ep = .error ()) := by
  refine ⟨getRecIDs_eq_collect zone records ep, fun huniq hgap => ?_⟩
  have hlt : (collectRecIDs zone records ep).length < ep.targets.length := by
    have := flatMap_length_lt (fun t => (matchingRecords zone records ep t).map (fun r => r.id))
      ep.targets (fun t ht => by simpa using huniq t ht)
      (by rcases hgap with ⟨t, ht, hm⟩; exact ⟨t, ht, by simp [hm]⟩)
    simpa [collectRecIDs] using this
  rw [getRecIDs_eq_collect]
  simp [Nat.ne_of_lt hlt]

def c1wrecs : List NameserverRecord :=
  [⟨"11".toList, "foo".toList, "A".toList, "5.5.5.5".toList, 0, 0⟩]

def c1wep : Endpoint :=
  ⟨"foo.baz.org".toList, "A".toList, ["5.5.5.5".toList, "1.2.3.4".toList], 0⟩

/-- C1 witness: with a snapshot where each target matches at most one record
and target `1.2.3.4` matches none, `getRecIDs` fails. -/
theorem getRecIDs_spec_witness : getRecIDs c1zone c1wrecs c1wep = .error () :=
  (getRecIDs_spec c1zone c1wrecs c1wep).2 (by decide) ⟨"1.2.3.4".toList, by decide, by decide⟩

/-! ## Lemmas about `selectLongest` (the zone-selection loop) -/

theorem selectLongest_ub (p : GoStr → Bool) :
    ∀ (zones : List GoStr) (best : GoStr),
      best.length ≤ (selectLongest p zones best).length ∧
      ∀ z ∈ zones, p z = true → z.length ≤ (selectLongest p zones best).length := by
  intro zones
  induction zones with
  | nil => intro best; exact ⟨Nat.le_refl _, by simp⟩
  | cons z rest ih =>
    intro best
    simp only [selectLongest]
    set best' := if p z && decide (best.length < z.length) then z else best with hb
    have h1 : best.length ≤ best'.length := by
      by_cases hp : p z = true <;> by_cases hl : best.length < z.length <;>
        simp [hb, hp, hl] <;> omega
    have h2 : p z = true → z.length ≤ best'.length := by
      intro hp
      by_cases hl : best.length < z.length <;> simp [hb, hp, hl] <;> omega
    obtain ⟨ha, hbnd⟩ := ih best'
    refine ⟨Nat.le_trans h1 ha, ?_⟩
    intro y hy hpy
    rcases List.mem_cons.mp hy with rfl | hy'
    · exact Nat.le_trans (h2 hpy) ha
    · exact hbnd y hy' hpy

theorem selectLongest_first (p : GoStr → Bool) :
    ∀ (zones : List GoStr) (best : GoStr),
      selectLongest p zones best = best ∨
      ∃ l1 l2, zones = l1 ++ selectLongest p zones best :: l2 ∧
        p (selectLongest p zones best) = true ∧
        best.length < (selectLongest p zones best).length ∧
        ∀ z ∈ l1, p z = true → z.length < (selectLongest p zones best).length := by
  intro zones
  induction zones with
  | nil => intro best; left; rfl
  | cons z rest ih =>
    intro best
    simp only [selectLongest]
    by_cases hcond : (p z && decide (best.length < z.length)) = true
    · rw [if_pos hcond]
      obtain ⟨hp, hl⟩ : p z = true ∧ best.length < z.length := by simpa using hcond
      rcases ih z with heq | ⟨l1, l2, hsplit, hps, hlen, hall⟩
      · right
        exact ⟨[], rest, by simp [heq], by rw [heq]; exact hp, by rw [heq]; exact hl, by simp⟩
      · right
        refine ⟨z :: l1, l2, by rw [List.cons_append, ← hsplit], hps, Nat.lt_trans hl hlen, ?_⟩
        intro y hy hpy
        rcases List.mem_cons.mp hy with rfl | hy'
        · exact hlen
        · exact hall y hy' hpy
    · rw [if_neg hcond]
      rcases ih best with heq | ⟨l1, l2, hsplit, hps, hlen, hall⟩
      · left; exact heq
      · right
        refine ⟨z :: l1, l2, by rw [List.cons_append, ← hsplit], hps, hlen, ?_⟩
        intro y hy hpy
        rcases List.mem_cons.mp hy with rfl | hy'
        · have hz : ¬ best.length < y.length := by
            intro h2
            exact hcond (by simp [hpy, h2])
          omega
        · exact hall y hy' hpy

theorem selectLongest_none (p : GoStr → Bool) (zones : List GoStr)
    (h : ∀ z ∈ zones, p z = false) : selectLongest p zones [] = [] := by
  rcases selectLongest_first p zones [] with heq | ⟨l1, l2, hsplit, hps, _, _⟩
  · exact heq
  · have hmem : selectLongest p zones [] ∈ l1 ++ selectLongest p zones [] :: l2 :=
      List.mem_append_right l1 (List.mem_cons_self _ _)
    rw [← hsplit] at hmem
    rw [h _ hmem] at hps
    cases hps

theorem selectLongest_ne_nil (p : GoStr → Bool) (zones : List GoStr)
    (hnz : ∀ z ∈ zones, z ≠ ([] : GoStr))
    (hex : ∃ z ∈ zones, p z = true) : selectLongest p zones [] ≠ [] := by
  rcases hex with ⟨z, hz, hpz⟩
  have hub := ((selectLongest_ub p zones []).2) z hz hpz
  have : z.length ≠ 0 := by
    intro h0
    exact hnz z hz (List.eq_nil_of_length_eq_zero h0)
  intro hnil
  rw [hnil] at hub
  simp only [List.length_nil, Nat.le_zero] at hub
  exact this hub

/-! ## Claim C6 -/

/-- C6 (counterexample): with a (degenerate) empty zone name in the list, the
dot-boundary rule matches (`"a."` ends with `"." + ""`), yet `getZone` returns
an error instead of that longest matching zone; the claim's universal
quantification over every zone list fails. -/
theorem getZone_empty_zone_counterexample :
    dotMatch "a.".toList ([] : GoStr) = true ∧ ([] : GoStr) ∈ [([] : GoStr)] ∧
    getZone [([] : GoStr)] ⟨"a.".toList, "A".toList, [], 0⟩ =
      .error ⟨"a.".toList, "A".toList, [], 0⟩ :=
  ⟨by decide, by decide, by rfl⟩

/-- C6 (amended): for every zone list with nonempty zone names, `getZone`
returns the longest zone matched by the dot-boundary rule (ties resolved by
first occurrence); only when no zone dot-matches does it run the
hyphen-boundary pass (longest wins, same tie-break); if neither pass matches
any zone it returns an error carrying the offending endpoint. -/
theorem getZone_spec (zones : List GoStr) (ep : Endpoint)
    (hnz : ∀ z ∈ zones, z ≠ ([] : GoStr)) :
    ((∃ z ∈ zones, dotMatch ep.dnsName z = true) →
      ∃ r, getZone zones ep = .ok r ∧ dotMatch ep.dnsName r = true ∧
        (∀ z ∈ zones, dotMatch ep.dnsName z = true → z.length ≤ r.length) ∧
        ∃ l1 l2, zones = l1 ++ r :: l2 ∧
          ∀ z ∈ l1, dotMatch ep.dnsName z = true → z.length < r.length) ∧
    ((∀ z ∈ zones, dotMatch ep.dnsName z = false) →
      (∃ z ∈ zones, hyphenMatch ep.dnsName z = true) →
      ∃ r, getZone zones ep = .ok r ∧ hyphenMatch ep.dnsName r = true ∧
        (∀ z ∈ zones, hyphenMatch ep.dnsName z = true → z.length ≤ r.length) ∧
        ∃ l1 l2, zones = l1 ++ r :: l2 ∧
          ∀ z ∈ l1, hyphenMatch ep.dnsName z = true → z.length < r.length) ∧
    ((∀ z ∈ zones, dotMatch ep.dnsName z = false) →
     (∀ z ∈ zones, hyphenMatch ep.dnsName z = false) →
      getZone zones ep = .error ep) := by
  refine ⟨?_, ?_, ?_⟩
  · intro hex
    have hne : selectLongest (dotMatch ep.dnsName) zones [] ≠ [] :=
      selectLongest_ne_nil _ zones hnz hex
    refine ⟨selectLongest (dotMatch ep.dnsName) zones [], ?_, ?_, ?_, ?_⟩
    · simp only [getZone]
      rw [if_neg hne]
    · rcases selectLongest_first (dotMatch ep.dnsName) zones [] with heq | ⟨_, _, _, hps, _, _⟩
      · exact absurd heq hne
      · exact hps
    · exact (selectLongest_ub (dotMatch ep.dnsName) zones []).2
    · rcases selectLongest_first (dotMatch ep.dnsName) zones [] with heq | ⟨l1, l2, hsplit, _, _, hall⟩
      · exact absurd heq hne
      · exact ⟨l1, l2, hsplit, hall⟩
  · intro hdot hex
    have h1 : selectLongest (dotMatch ep.dnsName) zones [] = [] :=
      selectLongest_none _ zones hdot
    have hne : selectLongest (hyphenMatch ep.dnsName) zones [] ≠ [] :=
      selectLongest_ne_nil _ zones hnz hex
    refine ⟨selectLongest (hyphenMatch ep.dnsName) zones [], ?_, ?_, ?_, ?_⟩
    · simp only [getZone]
      rw [if_pos h1, if_neg hne]
    · rcases selectLongest_first (hyphenMatch ep.dnsName) zones [] with heq | ⟨_, _, _, hps, _, _⟩
      · exact absurd heq hne
      · exact hps
    · exact (selectLongest_ub (hyphenMatch ep.dnsName) zones []).2
    · rcases selectLongest_first (hyphenMatch ep.dnsName) zones [] with heq | ⟨l1, l2, hsplit, _, _, hall⟩
      · exact absurd heq hne
      · exact ⟨l1, l2, hsplit, hall⟩
  · intro hdot hhyph
    have h1 : selectLongest (dotMatch ep.dnsName) zones [] = [] :=
      selectLongest_none _ zones hdot
    have h2 : selectLongest (hyphenMatch ep.dnsName) zones [] = [] :=
      selectLongest_none _ zones hhyph
    simp only [getZone]
    rw [if_pos h1, if_pos h2]

def c6zones : List GoStr :=
  ["bar.org".toList, "baz.org".toList, "subdomain.bar.org".toList]

def c6ep : Endpoint := ⟨"foo.subdomain.bar.org".toList, "A".toList, [], 0⟩

/-- C6 witness: on the repository's own test data, the theorem yields the
longest dot-boundary match `subdomain.bar.org`. -/
theorem getZone_spec_witness :
    ∃ r, getZone c6zones c6ep = .ok r ∧ dotMatch c6ep.dnsName r = true ∧
      (∀ z ∈ c6zones, dotMatch c6ep.dnsName z = true → z.length ≤ r.length) ∧
      ∃ l1 l2, c6zones = l1 ++ r :: l2 ∧
        ∀ z ∈ l1, dotMatch c6ep.dnsName z = true → z.length < r.length :=
  (getZone_spec c6zones c6ep (by decide)).1 ⟨"bar.org".toList, by decide, by decide⟩

/-! ## Lemmas about dot-splitting and joining -/

theorem splitOnDot_ne_nil : ∀ s : GoStr, splitOnDot s ≠ [] := by
  intro s
  cases s with
  | nil => simp [splitOnDot]
  | cons c rest =>
    by_cases hc : c = '.'
    · simp [splitOnDot, hc]
    · simp only [splitOnDot, if_neg hc]
      cases splitOnDot rest <;> simp

theorem joinDots_splitOnDot : ∀ s : GoStr, joinDots (splitOnDot s) = s := by
  intro s
  induction s with
  | nil => rfl
  | cons c rest ih =>
    by_cases hc : c = '.'
    · subst hc
      simp only [splitOnDot, if_pos rfl]
      obtain ⟨h, t, hht⟩ := List.exists_cons_of_ne_nil (splitOnDot_ne_nil rest)
      rw [hht] at ih ⊢
      show [] ++ '.' :: joinDots (h :: t) = '.' :: rest
      rw [ih]
      rfl
    · simp only [splitOnDot, if_neg hc]
      obtain ⟨h, t, hht⟩ := List.exists_cons_of_ne_nil (splitOnDot_ne_nil rest)
      rw [hht] at ih ⊢
      cases t with
      | nil =>
        show c :: h = c :: rest
        rw [show joinDots [h] = h from rfl] at ih
        rw [ih]
      | cons x xs =>
        show (c :: h) ++ '.' :: joinDots (x :: xs) = c :: rest
        rw [List.cons_append, ← ih]
        rfl

theorem joinDots_ne_nil_of_head (x : GoStr) (xs : List GoStr) (hx : x ≠ []) :
    joinDots (x :: xs) ≠ [] := by
  cases xs with
  | nil => exact hx
  | cons y ys =>
    show x ++ '.' :: joinDots (y :: ys) ≠ []
    simp

theorem stripCount_le_cap : ∀ (rl zr : List GoStr) (cap : Nat), stripCount rl zr cap ≤ cap := by
  intro rl
  induction rl with
  | nil => intro zr cap; cases cap <;> simp [stripCount]
  | cons c cs ih =>
    intro zr cap
    cases cap with
    | zero => simp [stripCount]
    | succ k =>
      cases zr with
      | nil => simp [stripCount]
      | cons z zs =>
        simp only [stripCount]
        by_cases hc : c = z
        · rw [if_pos hc]
          have := ih zs k
          omega
        · rw [if_neg hc]
          omega

/-! ## Claims C7 and C8: `extractRecordName` -/

/-- The trailing-label removal written the way the spec words it: on the
REVERSED label lists, while the next candidate label equals the next zone
label and at least one label would remain, remove it. -/
def stripTrailingSpec : List GoStr → List GoStr → List GoStr
  | c :: cs, z :: zs => if c = z ∧ cs ≠ [] then stripTrailingSpec cs zs else c :: cs
  | cs, _ => cs

/-- The record-name function as the spec describes it: empty at the apex,
otherwise strip the `"." + zone` suffix and then remove duplicated trailing
labels, label by label from the end. -/
def recordNameSpec (dnsName zone : GoStr) : GoStr :=
  if dnsName = zone then []
  else
    let candidate := trimSuffix dnsName ('.' :: zone)
    joinDots ((stripTrailingSpec (splitOnDot candidate).reverse (splitOnDot zone).reverse).reverse)

theorem stripTrailingSpec_eq_drop :
    ∀ (rl zr : List GoStr), stripTrailingSpec rl zr = rl.drop (stripCount rl zr (rl.length - 1)) := by
  intro rl
  induction rl with
  | nil =>
    intro zr
    cases zr <;> rfl
  | cons c cs ih =>
    intro zr
    cases zr with
    | nil =>
      show c :: cs = (c :: cs).drop (stripCount (c :: cs) [] ((c :: cs).length - 1))
      cases h : (c :: cs).length - 1 <;> simp [stripCount]
    | cons z zs =>
      by_cases hc : c = z ∧ cs ≠ []
      · obtain ⟨k, hk⟩ : ∃ k, cs.length = k + 1 := by
          cases cs with
          | nil => exact absurd rfl hc.2
          | cons a as => exact ⟨as.length, rfl⟩
        show (if c = z ∧ cs ≠ [] then stripTrailingSpec cs zs else c :: cs)
            = (c :: cs).drop (stripCount (c :: cs) (z :: zs) ((c :: cs).length - 1))
        rw [if_pos hc]
        have hcap : (c :: cs).length - 1 = k + 1 := by simp [hk]
        rw [hcap]
        simp only [stripCount, if_pos hc.1]
        rw [List.drop_succ_cons, ih zs]
        have : cs.length - 1 = k := by omega
        rw [this]
      · show (if c = z ∧ cs ≠ [] then stripTrailingSpec cs zs else c :: cs)
            = (c :: cs).drop (stripCount (c :: cs) (z :: zs) ((c :: cs).length - 1))
        rw [if_neg hc]
        cases hcs : cs with
        | nil => rfl
        | cons a as =>
          have hcne : ¬ c = z := by
            intro hcz
            exact hc ⟨hcz, by simp [hcs]⟩
          have hcap : (c :: a :: as).length - 1 = as.length + 1 := by simp
          rw [hcap]
          simp [stripCount, hcne]

/-- C7: `extractRecordName` coincides everywhere with the spec's description
(apex empty; strip `"." + zone`; remove duplicated trailing labels while at
least one candidate label remains), and evaluates as the spec's two examples
require. -/
theorem extractRecordName_spec :
    (∀ dnsName zone : GoStr, extractRecordName dnsName zone = recordNameSpec dnsName zone) ∧
    extractRecordName "_edns.a-example.com.example.com".toList "example.com".toList
      = "_edns.a-example".toList ∧
    extractRecordName "foo.example.com".toList "example.com".toList = "foo".toList := by
  refine ⟨?_, by decide, by decide⟩
  intro dnsName zone
  unfold extractRecordName recordNameSpec
  by_cases h : dnsName = zone
  · simp [h]
  · simp only [if_neg h]
    rw [stripTrailingSpec_eq_drop, List.length_reverse, List.drop_reverse,
      List.reverse_reverse]
    by_cases h0 : stripCount (splitOnDot (trimSuffix dnsName ('.' :: zone))).reverse
        (splitOnDot zone).reverse ((splitOnDot (trimSuffix dnsName ('.' :: zone))).length - 1) > 0
    · rw [if_pos h0]
    · have h0eq : stripCount (splitOnDot (trimSuffix dnsName ('.' :: zone))).reverse
          (splitOnDot zone).reverse ((splitOnDot (trimSuffix dnsName ('.' :: zone))).length - 1) = 0 := by
        omega
      rw [if_neg h0, h0eq, Nat.sub_zero, List.take_length, joinDots_splitOnDot]

/-- C8 (counterexample): for `dnsName = "." + zone` (which differs from the
zone), the suffix strip already empties the candidate and the function returns
the empty string, so a non-apex input CAN yield `""`. -/
theorem extractRecordName_dot_counterexample :
    ".example.com".toList ≠ "example.com".toList ∧
    extractRecordName ".example.com".toList "example.com".toList = [] :=
  ⟨by decide, by decide⟩

/-- C8 (amended): for every non-apex `dnsName` that is nonempty and does not
begin with a dot (so its first label is nonempty), `extractRecordName` never
returns the empty string: the label-stripping loop always leaves the first
label in place. The empty result arises only at the apex or when the
candidate left by the suffix strip is already degenerate (empty first label). -/
theorem extractRecordName_ne_nil (dnsName zone : GoStr) (hne : dnsName ≠ zone)
    (hnil : dnsName ≠ []) (hdot : dnsName.head? ≠ some '.') :
    extractRecordName dnsName zone ≠ [] := by
  obtain ⟨a, as, rfl⟩ := List.exists_cons_of_ne_nil hnil
  have ha : a ≠ '.' := by
    intro hc
    exact hdot (by rw [hc]; rfl)
  -- the candidate after the suffix strip is nonempty and keeps the head
  obtain ⟨bs, hname⟩ : ∃ bs, trimSuffix (a :: as) ('.' :: zone) = a :: bs := by
    unfold trimSuffix
    by_cases hs : hasSuffix (a :: as) ('.' :: zone) = true
    · rw [if_pos hs]
      have hsuf : ('.' :: zone) <:+ (a :: as) := List.isSuffixOf_iff_suffix.mp hs
      have hlen : ('.' :: zone).length ≤ (a :: as).length := hsuf.length_le
      have hstrict : ('.' :: zone).length < (a :: as).length := by
        rcases Nat.lt_or_ge ('.' :: zone).length (a :: as).length with h | h
        · exact h
        · have heq : ('.' :: zone) = a :: as := hsuf.eq_of_length (by omega)
          have : a = '.' := by
            have := congrArg List.head? heq
            simpa using this.symm
          exact absurd this ha
      obtain ⟨m, hm⟩ : ∃ m, (a :: as).length - ('.' :: zone).length = m + 1 := by
        refine ⟨(a :: as).length - ('.' :: zone).length - 1, ?_⟩
        omega
      rw [hm, List.take_succ_cons]
      exact ⟨_, rfl⟩
    · rw [if_neg hs]
      exact ⟨as, rfl⟩
  have hsplit : ∃ h t, splitOnDot (trimSuffix (a :: as) ('.' :: zone)) = (a :: h) :: t := by
    rw [hname]
    simp only [splitOnDot, if_neg ha]
    obtain ⟨h, t, hht⟩ := List.exists_cons_of_ne_nil (splitOnDot_ne_nil bs)
    rw [hht]
    exact ⟨h, t, rfl⟩
  obtain ⟨h, t, hht⟩ := hsplit
  unfold extractRecordName
  rw [if_neg hne]
  simp only [hht]
  by_cases h0 : stripCount ((a :: h) :: t).reverse (splitOnDot zone).reverse
      (((a :: h) :: t).length - 1) > 0
  · rw [if_pos h0]
    have hcap : stripCount ((a :: h) :: t).reverse (splitOnDot zone).reverse
        (((a :: h) :: t).length - 1) ≤ ((a :: h) :: t).length - 1 := by
      have := stripCount_le_cap ((a :: h) :: t).reverse (splitOnDot zone).reverse
        (((a :: h) :: t).length - 1)
      exact this
    obtain ⟨m, hm⟩ : ∃ m, ((a :: h) :: t).length
        - stripCount ((a :: h) :: t).reverse (splitOnDot zone).reverse
          (((a :: h) :: t).length - 1) = m + 1 := by
      refine ⟨((a :: h) :: t).length - stripCount ((a :: h) :: t).reverse
        (splitOnDot zone).reverse (((a :: h) :: t).length - 1) - 1, ?_⟩
      simp only [List.length_cons] at hcap ⊢
      omega
    rw [hm, List.take_succ_cons]
    exact joinDots_ne_nil_of_head _ _ (by simp)
  · rw [if_neg h0, hname]
    simp

/-- C8 witness: a normal subdomain name yields a nonempty record name. -/
theorem extractRecordName_ne_nil_witness :
    extractRecordName "foo.example.com".toList "example.com".toList ≠ [] :=
  extractRecordName_ne_nil "foo.example.com".toList "example.com".toList
    (by decide) (by decide) (by decide)

/-! ## Lemmas about `findExactRecord` and the issued-call helpers -/

theorem findRecordsByNameAndType_subset (zone : GoStr) (records : List NameserverRecord)
    (dnsName recordType : GoStr) (r : NameserverRecord)
    (hr : r ∈ findRecordsByNameAndType zone records dnsName recordType) : r ∈ records :=
  List.mem_of_mem_filter hr

theorem findExactRecord_eq_nil (records : List NameserverRecord) (content : GoStr)
    (h : ∀ r ∈ records, r.content ≠ content) : findExactRecord records content = [] := by
  unfold findExactRecord
  rw [List.find?_eq_none.mpr (fun r hr => by simpa using h r hr)]

theorem findExactRecord_ne_nil (records : List NameserverRecord) (content : GoStr)
    (hlive : ∀ r ∈ records, r.id ≠ ([] : GoStr))
    (hex : ∃ r ∈ records, r.content = content) : findExactRecord records content ≠ [] := by
  unfold findExactRecord
  rcases hex with ⟨r, hr, hc⟩
  have hsome : (records.find? (fun r => r.content = content)).isSome :=
    List.find?_isSome.mpr ⟨r, hr, by simpa using hc⟩
  obtain ⟨r', hr'⟩ := Option.isSome_iff_exists.mp hsome
  rw [hr']
  exact hlive r' (List.mem_of_find?_eq_some hr')

theorem doCreate_trace {σ : Type} (C : ClientOps σ) (st : PassState σ) (req : RecordRequest) :
    (doCreate C st req).trace = st.trace ++ [Op.create req] := by
  unfold doCreate
  rcases hcr : C.createRecord st.client req with ⟨e, s'⟩
  cases e with
  | none => simp
  | some err =>
    by_cases h2 : isObjectExistsError err = true <;> simp [h2]

theorem doUpdate_trace {σ : Type} (C : ClientOps σ) (st : PassState σ) (id : GoStr)
    (req : RecordRequest) : (doUpdate C st id req).trace = st.trace ++ [Op.update id req] := by
  unfold doUpdate
  rcases hcr : C.updateRecord st.client id req with ⟨e, s'⟩
  cases e <;> simp

theorem doDelete_trace {σ : Type} (C : ClientOps σ) (st : PassState σ) (id : GoStr) :
    (doDelete C st id).trace = st.trace ++ [Op.delete id] := by
  unfold doDelete
  rcases hcr : C.deleteRecord st.client id with ⟨e, s'⟩
  cases e <;> simp

/-- The pass errors recorded for one create call answered by `fc`. -/
def createErrs (fc : RecordRequest → Option GoErr) (req : RecordRequest) : List PassError :=
  match fc req with
  | none => []
  | some e => if isObjectExistsError e then [] else [.clientErr e]

/-- The pass errors recorded for one update call answered by `fu`. -/
def updateErrs (fu : GoStr → RecordRequest → Option GoErr) (id : GoStr)
    (req : RecordRequest) : List PassError :=
  match fu id req with
  | none => []
  | some e => [.clientErr e]

theorem doCreate_pure (fz : Except GoErr (List GoStr))
    (fr : GoStr → Except GoErr (List NameserverRecord))
    (fc : RecordRequest → Option GoErr) (fu : GoStr → RecordRequest → Option GoErr)
    (fd : GoStr → Option GoErr) (st : PassState Unit) (req : RecordRequest) :
    doCreate (pureClient fz fr fc fu fd) st req =
      { st with trace := st.trace ++ [Op.create req], errs := st.errs ++ createErrs fc req } := by
  unfold doCreate pureClient createErrs
  cases hfc : fc req with
  | none => simp [hfc]
  | some e =>
    by_cases h2 : isObjectExistsError e = true <;> simp [hfc, h2]

theorem doUpdate_pure (fz : Except GoErr (List GoStr))
    (fr : GoStr → Except GoErr (List NameserverRecord))
    (fc : RecordRequest → Option GoErr) (fu : GoStr → RecordRequest → Option GoErr)
    (fd : GoStr → Option GoErr) (st : PassState Unit) (id : GoStr) (req : RecordRequest) :
    doUpdate (pureClient fz fr fc fu fd) st id req =
      { st with trace := st.trace ++ [Op.update id req], errs := st.errs ++ updateErrs fu id req } := by
  unfold doUpdate pureClient updateErrs
  cases hfu : fu id req <;> simp [hfu]

/-! ## Claim C2 -/

/-- C2: the Create-phase per-target decision against the phase-cached snapshot
(all IDs of a live snapshot are nonempty): skip when a record with the resolved
name, type and exactly this content is cached; update the single cached
name/type match in place (new content and TTL) when the endpoint has exactly
one target; otherwise create, recording the failure unless it is the
registrar's "object exists" error (code 2302), which is swallowed. -/
theorem create_phase_target_spec (fz : Except GoErr (List GoStr))
    (fr : GoStr → Except GoErr (List NameserverRecord))
    (fc : RecordRequest → Option GoErr) (fu : GoStr → RecordRequest → Option GoErr)
    (fd : GoStr → Option GoErr) (zone name : GoStr) (cacheRecs : List NameserverRecord)
    (ep : Endpoint) (st : PassState Unit) (target : GoStr)
    (existing : List NameserverRecord) (req : RecordRequest)
    (hlive : ∀ r ∈ cacheRecs, r.id ≠ ([] : GoStr))
    (hexist : existing = findRecordsByNameAndType zone cacheRecs ep.dnsName ep.recordType)
    (hreq : req = ⟨zone, name, ep.recordType, ep.recordTTL, target, 0⟩) :
    ((∃ r ∈ existing, r.content = target) →
      applyCreateTarget (pureClient fz fr fc fu fd) zone name cacheRecs ep st target = st) ∧
    (∀ e, (∀ r ∈ existing, r.content ≠ target) → existing = [e] → ep.targets.length = 1 →
      applyCreateTarget (pureClient fz fr fc fu fd) zone name cacheRecs ep st target =
        { st with trace := st.trace ++ [Op.update e.id req],
                  errs := st.errs ++ updateErrs fu e.id req }) ∧
    ((∀ r ∈ existing, r.content ≠ target) → ¬(existing.length = 1 ∧ ep.targets.length = 1) →
      applyCreateTarget (pureClient fz fr fc fu fd) zone name cacheRecs ep st target =
        { st with trace := st.trace ++ [Op.create req],
                  errs := st.errs ++ createErrs fc req }) := by
  subst hexist
  subst hreq
  have hliveE : ∀ r ∈ findRecordsByNameAndType zone cacheRecs ep.dnsName ep.recordType,
      r.id ≠ ([] : GoStr) :=
    fun r hr => hlive r (findRecordsByNameAndType_subset zone cacheRecs ep.dnsName ep.recordType r hr)
  refine ⟨?_, ?_, ?_⟩
  · intro hex
    have hne := findExactRecord_ne_nil _ target hliveE hex
    simp only [applyCreateTarget]
    rw [if_pos hne]
  · intro e hnone hsingle htlen
    have h0 : findExactRecord (findRecordsByNameAndType zone cacheRecs ep.dnsName ep.recordType)
        target = [] := findExactRecord_eq_nil _ target hnone
    simp only [applyCreateTarget]
    rw [if_neg (by simp [h0])]
    rw [hsingle]
    rw [if_pos ⟨by simp, htlen⟩]
    exact doUpdate_pure fz fr fc fu fd st e.id _
  · intro hnone hnot
    have h0 : findExactRecord (findRecordsByNameAndType zone cacheRecs ep.dnsName ep.recordType)
        target = [] := findExactRecord_eq_nil _ target hnone
    simp only [applyCreateTarget]
    rw [if_neg (by simp [h0])]
    rw [if_neg hnot]
    exact doCreate_pure fz fr fc fu fd st _

def c2cache : List NameserverRecord :=
  [⟨"0".toList, "foo".toList, "A".toList, "1.1.1.1".toList, 60, 0⟩]

def c2ep : Endpoint := ⟨"foo.example.com".toList, "A".toList, ["1.1.1.1".toList], 60⟩

def c2st : PassState Unit := ⟨(), [], [], []⟩

/-- C2 witness: an exact cached content match makes the Create phase skip the
target without issuing a registrar call. -/
theorem create_phase_target_spec_witness :
    applyCreateTarget (pureClient (.ok []) (fun z => .ok []) (fun r => none)
        (fun i r => none) (fun i => none)) "example.com".toList "foo".toList
      c2cache c2ep c2st "1.1.1.1".toList = c2st :=
  (create_phase_target_spec (.ok []) (fun z => .ok []) (fun r => none)
      (fun i r => none) (fun i => none) "example.com".toList "foo".toList c2cache c2ep c2st
      "1.1.1.1".toList (findRecordsByNameAndType "example.com".toList c2cache
        c2ep.dnsName c2ep.recordType)
      ⟨"example.com".toList, "foo".toList, c2ep.recordType, c2ep.recordTTL, "1.1.1.1".toList, 0⟩
      (by decide) rfl rfl).1
    ⟨⟨"0".toList, "foo".toList, "A".toList, "1.1.1.1".toList, 60, 0⟩, by decide, by decide⟩

/-! ## Claim C5 -/

/-- Whether some two live records of a list share (name, type, content) while
having distinct identifiers. -/
def hasLiveDuplicate (recs : List NameserverRecord) : Bool :=
  recs.any (fun r1 => recs.any (fun r2 =>
    r1.id ≠ r2.id && r1.name = r2.name && r1.type = r2.type && r1.content = r2.content))

def c5start : MockState := ⟨[("example.com".toList, [])], []⟩

def c5ep : Endpoint :=
  ⟨"foo.example.com".toList, "A".toList, ["1.1.1.1".toList, "1.1.1.1".toList], 60⟩

def c5changes : Changes := ⟨[c5ep], [], [], []⟩

def c5final : MockState := (applyChanges mockClient c5start c5changes).2.client

/-- C5 (counterexample): starting from a duplicate-free registrar state, one
`ApplyChanges` pass CAN introduce two live records sharing (name, type,
content): a Create endpoint listing the same target twice probes the same
stale phase cache for both targets, so the second probe misses the first
create and a duplicate is created. -/
theorem applyChanges_duplicate_counterexample :
    hasLiveDuplicate ((mockGetRecords c5start "example.com".toList).1.toOption.getD []) = false ∧
    (applyChanges mockClient c5start c5changes).1 = .ok ∧
    hasLiveDuplicate ((mockGetRecords c5final "example.com".toList).1.toOption.getD []) = true := by
  refine ⟨by decide, by decide, by decide⟩

/-- C5 (amended): each single create decision does respect the snapshot it
probes — when a record with the resolved name, same type and same content is
in the phase-cached snapshot (live IDs nonempty), no call is issued at all,
and consequently any create the phase issues is for a (name, type, content)
absent from the snapshot it probed. Uniqueness against the LIVE registrar
state is not guaranteed, because the phase cache is not refreshed after
in-pass writes (see the counterexample). -/
theorem applyCreateTarget_probes_snapshot {σ : Type} (C : ClientOps σ)
    (zone name : GoStr) (cacheRecs : List NameserverRecord) (ep : Endpoint)
    (st : PassState σ) (target : GoStr)
    (hlive : ∀ r ∈ cacheRecs, r.id ≠ ([] : GoStr)) :
    ((∃ r ∈ findRecordsByNameAndType zone cacheRecs ep.dnsName ep.recordType,
        r.content = target) →
      applyCreateTarget C zone name cacheRecs ep st target = st) ∧
    (∀ req, (applyCreateTarget C zone name cacheRecs ep st target).trace
        = st.trace ++ [Op.create req] →
      ∀ r ∈ findRecordsByNameAndType zone cacheRecs ep.dnsName ep.recordType,
        r.content ≠ target) := by
  have hliveE : ∀ r ∈ findRecordsByNameAndType zone cacheRecs ep.dnsName ep.recordType,
      r.id ≠ ([] : GoStr) :=
    fun r hr => hlive r (findRecordsByNameAndType_subset zone cacheRecs ep.dnsName ep.recordType r hr)
  have hskip : (∃ r ∈ findRecordsByNameAndType zone cacheRecs ep.dnsName ep.recordType,
      r.content = target) →
      applyCreateTarget C zone name cacheRecs ep st target = st := by
    intro hex
    have hne := findExactRecord_ne_nil _ target hliveE hex
    simp only [applyCreateTarget]
    rw [if_pos hne]
  refine ⟨hskip, ?_⟩
  intro req htr r hr hcont
  have hst := hskip ⟨r, hr, hcont⟩
  rw [hst] at htr
  have := congrArg List.length htr
  simp at this

/-- C5 witness: a cached record with the same content suppresses the call. -/
theorem applyCreateTarget_probes_snapshot_witness :
    applyCreateTarget mockClient "example.com".toList "foo".toList c2cache c2ep
      ⟨c5start, [], [], []⟩ "1.1.1.1".toList = ⟨c5start, [], [], []⟩ :=
  (applyCreateTarget_probes_snapshot mockClient "example.com".toList "foo".toList
      c2cache c2ep ⟨c5start, [], [], []⟩ "1.1.1.1".toList (by decide)).1
    ⟨⟨"0".toList, "foo".toList, "A".toList, "1.1.1.1".toList, 60, 0⟩, by decide, by decide⟩

/-! ## Claims C3 and C10 -/

/-- The operation the paired Update path issues at index `j`, as the spec
describes it: delete `identifiers[j]` when the old target has no replacement;
create `new.targets[j]` with the NEW endpoint's TTL when it has no old
counterpart; otherwise update `identifiers[j]` in place to `new.targets[j]`
with the OLD endpoint's TTL. -/
def pairedOp (zone name : GoStr) (oldEp newEp : Endpoint) (recIDs : List GoStr)
    (j : Nat) : Op :=
  if j ≥ newEp.targets.length then .delete (recIDs.getD j [])
  else if j ≥ oldEp.targets.length then
    .create ⟨zone, name, newEp.recordType, newEp.recordTTL, newEp.targets.getD j [], 0⟩
  else .update (recIDs.getD j [])
    ⟨zone, name, newEp.recordType, oldEp.recordTTL, newEp.targets.getD j [], 0⟩

theorem pairedStep_trace {σ : Type} (C : ClientOps σ) (zone name : GoStr)
    (oldEp newEp : Endpoint) (recIDs : List GoStr) (st : PassState σ) (j : Nat) :
    (pairedStep C zone name oldEp newEp recIDs st j).trace
      = st.trace ++ [pairedOp zone name oldEp newEp recIDs j] := by
  unfold pairedStep pairedOp
  by_cases h1 : j ≥ newEp.targets.length
  · rw [if_pos h1, if_pos h1, doDelete_trace]
  · rw [if_neg h1, if_neg h1]
    by_cases h2 : j ≥ oldEp.targets.length
    · rw [if_pos h2, if_pos h2, doCreate_trace]
    · rw [if_neg h2, if_neg h2, doUpdate_trace]

theorem foldl_pairedStep_trace {σ : Type} (C : ClientOps σ) (zone name : GoStr)
    (oldEp newEp : Endpoint) (recIDs : List GoStr) :
    ∀ (l : List Nat) (st : PassState σ),
      (l.foldl (fun s j => pairedStep C zone name oldEp newEp recIDs s j) st).trace
        = st.trace ++ l.map (pairedOp zone name oldEp newEp recIDs) := by
  intro l
  induction l with
  | nil => intro st; simp
  | cons j js ih =>
    intro st
    rw [List.foldl_cons, ih, pairedStep_trace, List.map_cons]
    simp

/-- C3: in the paired Update path (old identifiers fully resolved), with
`n = max(|old.targets|, |new.targets|, |identifiers|)`, the phase issues, for
every index `j < n` in order: a delete of `identifiers[j]` when
`j ≥ |new.targets|`; a create of `new.targets[j]` with the new endpoint's TTL
when `j ≥ |old.targets|`; otherwise an in-place update of `identifiers[j]` to
`new.targets[j]` with the TTL taken from the OLD endpoint. -/
theorem update_paired_spec {σ : Type} (C : ClientOps σ) (zones : List GoStr)
    (st : PassState σ) (oldEp newEp : Endpoint) (zone : GoStr)
    (recs : List NameserverRecord) (ids : List GoStr)
    (hz : getZone zones oldEp = .ok zone)
    (hcache : cacheLookup st.cache zone = some recs)
    (hids : getRecIDs zone recs oldEp = .ok ids) :
    (applyUpdatePair C zones st oldEp newEp).trace =
      st.trace ++
        (List.range (max (max oldEp.targets.length newEp.targets.length) ids.length)).map
          (pairedOp zone (extractRecordName newEp.dnsName zone) oldEp newEp ids) := by
  simp only [applyUpdatePair, hz, ensureZone, hcache, hids]
  exact foldl_pairedStep_trace C zone (extractRecordName newEp.dnsName zone) oldEp newEp ids
    (List.range (max (max oldEp.targets.length newEp.targets.length) ids.length)) st

def c3zones : List GoStr := ["example.com".toList]

def c3recs : List NameserverRecord :=
  [⟨"0".toList, "foo".toList, "A".toList, "1.1.1.1".toList, 60, 0⟩,
   ⟨"1".toList, "foo".toList, "A".toList, "1.1.1.2".toList, 60, 0⟩]

def c3old : Endpoint :=
  ⟨"foo.example.com".toList, "A".toList, ["1.1.1.1".toList, "1.1.1.2".toList], 60⟩

def c3new : Endpoint := ⟨"foo.example.com".toList, "A".toList, ["2.2.2.2".toList], 120⟩

def c3st : PassState MockState :=
  ⟨⟨[("example.com".toList, c3recs)], []⟩, [("example.com".toList, c3recs)], [], []⟩

/-- C3 witness: shrinking a two-target endpoint to one target updates index 0
in place (old TTL) and deletes the surplus identifier at index 1. -/
theorem update_paired_spec_witness :
    (applyUpdatePair mockClient c3zones c3st c3old c3new).trace =
      [Op.update "0".toList
         ⟨"example.com".toList, "foo".toList, "A".toList, 60, "2.2.2.2".toList, 0⟩,
       Op.delete "1".toList] := by
  have h := update_paired_spec mockClient c3zones c3st c3old c3new "example.com".toList
    c3recs ["0".toList, "1".toList] (by rfl) (by rfl) (by rfl)
  rw [h]
  decide

/-- C10: whenever `getRecIDs` succeeds it returns exactly `|old.targets|`
identifiers, so every index access of the paired Update loop stays in bounds:
for `j < max(|old.targets|, |new.targets|, |identifiers|)`, the delete branch
(`j ≥ |new.targets|`) reads `identifiers[j]` and `old.targets[j]` in range, and
the update branch (`j < |new.targets|`, `j < |old.targets|`) reads
`identifiers[j]` in range. -/
theorem paired_index_bounds (zone : GoStr) (records : List NameserverRecord)
    (oldEp newEp : Endpoint) (ids : List GoStr)
    (h : getRecIDs zone records oldEp = .ok ids) :
    ids.length = oldEp.targets.length ∧
    ∀ j < max (max oldEp.targets.length newEp.targets.length) ids.length,
      (newEp.targets.length ≤ j → j < ids.length ∧ j < oldEp.targets.length) ∧
      (¬ newEp.targets.length ≤ j → ¬ oldEp.targets.length ≤ j → j < ids.length) := by
  have hlen : ids.length = oldEp.targets.length := by
    rw [getRecIDs_eq_collect] at h
    by_cases hc : (collectRecIDs zone records oldEp).length ≠ oldEp.targets.length
    · rw [if_pos hc] at h
      cases h
    · rw [if_neg hc] at h
      injection h with h2
      rw [← h2]
      omega
  refine ⟨hlen, ?_⟩
  intro j hj
  omega

def c10recs : List NameserverRecord :=
  [⟨"0".toList, "foo".toList, "A".toList, "1.1.1.1".toList, 60, 0⟩]

def c10old : Endpoint := ⟨"foo.example.com".toList, "A".toList, ["1.1.1.1".toList], 60⟩

def c10new : Endpoint :=
  ⟨"foo.example.com".toList, "A".toList, ["2.2.2.2".toList, "3.3.3.3".toList], 60⟩

/-- C10 witness: a resolved one-target old endpoint yields one identifier and
in-range accesses for every loop index. -/
theorem paired_index_bounds_witness :
    (["0".toList] : List GoStr).length = c10old.targets.length ∧
    ∀ j < max (max c10old.targets.length c10new.targets.length)
        (["0".toList] : List GoStr).length,
      (c10new.targets.length ≤ j →
        j < (["0".toList] : List GoStr).length ∧ j < c10old.targets.length) ∧
      (¬ c10new.targets.length ≤ j → ¬ c10old.targets.length ≤ j →
        j < (["0".toList] : List GoStr).length) :=
  paired_index_bounds "example.com".toList c10recs c10old c10new ["0".toList] (by rfl)

/-! ## Claim C4 -/

theorem upsert_fold_pure (fz : Except GoErr (List GoStr))
    (fr : GoStr → Except GoErr (List NameserverRecord))
    (fc : RecordRequest → Option GoErr) (fu : GoStr → RecordRequest → Option GoErr)
    (fd : GoStr → Option GoErr) (existing : List NameserverRecord)
    (reqOf : GoStr → RecordRequest) :
    ∀ (ts : List GoStr) (st : PassState Unit),
      ts.foldl (fun s target => if findExactRecord existing target ≠ [] then s
        else doCreate (pureClient fz fr fc fu fd) s (reqOf target)) st =
      { st with
        trace := st.trace ++ (ts.filter (fun t => findExactRecord existing t = [])).map
          (fun t => Op.create (reqOf t)),
        errs := st.errs ++ (ts.filter (fun t => findExactRecord existing t = [])).flatMap
          (fun t => createErrs fc (reqOf t)) } := by
  intro ts
  induction ts with
  | nil => intro st; simp
  | cons t ts ih =>
    intro st
    rw [List.foldl_cons]
    by_cases h : findExactRecord existing t = []
    · rw [if_neg (by simpa using h)]
      rw [doCreate_pure, ih]
      simp [List.filter_cons, h]
    · rw [if_pos h, ih]
      simp [List.filter_cons, h]

theorem filter_exact_eq_any (existing : List NameserverRecord)
    (hliveE : ∀ r ∈ existing, r.id ≠ ([] : GoStr)) (ts : List GoStr) :
    ts.filter (fun t => findExactRecord existing t = []) =
      ts.filter (fun t => !(existing.any (fun r => r.content = t))) := by
  apply List.filter_congr
  intro t _
  by_cases hex : ∃ r ∈ existing, r.content = t
  · have h1 := findExactRecord_ne_nil existing t hliveE hex
    rcases hex with ⟨r, hr, hc⟩
    have hany : existing.any (fun r => r.content = t) = true :=
      List.any_eq_true.mpr ⟨r, hr, by simpa using hc⟩
    simp [h1, hany]
  · have h0 := findExactRecord_eq_nil existing t (by
      intro r hr hc
      exact hex ⟨r, hr, hc⟩)
    have hany : existing.any (fun r => r.content = t) = false := by
      rw [List.any_eq_false]
      intro r hr
      simp only [decide_eq_true_eq]
      intro hc
      exact hex ⟨r, hr, hc⟩
    simp [h0, hany]

/-- C4: when the old endpoint's identifiers cannot be resolved
(`getRecIDs` fails), the Update phase records no error for that failure and
falls back to Create-phase logic against the new endpoint: it issues exactly
one create (with the NEW endpoint's TTL) per new target that has no cached
record with that content, and the only errors recorded are non-"object exists"
create failures — the "object exists" error (2302) is swallowed. -/
theorem update_fallback_spec (fz : Except GoErr (List GoStr))
    (fr : GoStr → Except GoErr (List NameserverRecord))
    (fc : RecordRequest → Option GoErr) (fu : GoStr → RecordRequest → Option GoErr)
    (fd : GoStr → Option GoErr) (zones : List GoStr) (st : PassState Unit)
    (oldEp newEp : Endpoint) (zone : GoStr) (recs : List NameserverRecord)
    (existing : List NameserverRecord) (name : GoStr) (created : List GoStr)
    (hz : getZone zones oldEp = .ok zone)
    (hcache : cacheLookup st.cache zone = some recs)
    (herr : getRecIDs zone recs oldEp = .error ())
    (hlive : ∀ r ∈ recs, r.id ≠ ([] : GoStr))
    (hexist : existing = findRecordsByNameAndType zone recs newEp.dnsName newEp.recordType)
    (hname : name = extractRecordName newEp.dnsName zone)
    (hcreated : created = newEp.targets.filter
      (fun t => !(existing.any (fun r => r.content = t)))) :
    (applyUpdatePair (pureClient fz fr fc fu fd) zones st oldEp newEp).trace =
      st.trace ++ created.map
        (fun t => Op.create ⟨zone, name, newEp.recordType, newEp.recordTTL, t, 0⟩) ∧
    (applyUpdatePair (pureClient fz fr fc fu fd) zones st oldEp newEp).errs =
      st.errs ++ created.flatMap
        (fun t => createErrs fc ⟨zone, name, newEp.recordType, newEp.recordTTL, t, 0⟩) := by
  subst hexist hname hcreated
  have hliveE : ∀ r ∈ findRecordsByNameAndType zone recs newEp.dnsName newEp.recordType,
      r.id ≠ ([] : GoStr) :=
    fun r hr => hlive r (findRecordsByNameAndType_subset zone recs newEp.dnsName newEp.recordType r hr)
  have key : applyUpdatePair (pureClient fz fr fc fu fd) zones st oldEp newEp =
      updateFallback (pureClient fz fr fc fu fd) zone (extractRecordName newEp.dnsName zone)
        recs newEp st := by
    simp only [applyUpdatePair, hz, ensureZone, hcache, herr]
  rw [key]
  unfold updateFallback
  rw [upsert_fold_pure fz fr fc fu fd
    (findRecordsByNameAndType zone recs newEp.dnsName newEp.recordType)
    (fun t => ⟨zone, extractRecordName newEp.dnsName zone, newEp.recordType,
      newEp.recordTTL, t, 0⟩) newEp.targets st]
  rw [filter_exact_eq_any _ hliveE]
  exact ⟨rfl, rfl⟩

def c4zones : List GoStr := ["example.com".toList]

def c4old : Endpoint := ⟨"foo.example.com".toList, "A".toList, ["1.1.1.1".toList], 60⟩

def c4new : Endpoint := ⟨"foo.example.com".toList, "A".toList, ["2.2.2.2".toList], 60⟩

def c4st : PassState Unit := ⟨(), [("example.com".toList, [])], [], []⟩

/-- C4 witness: with an empty snapshot (the old record is missing), the update
falls back to creating the new target; a create answered with the registrar's
"object exists" error (code 2302) records no error. -/
theorem update_fallback_spec_witness :
    (applyUpdatePair (pureClient (.ok []) (fun z => .ok [])
        (fun r => some ⟨some 2302⟩) (fun i r => none) (fun i => none))
        c4zones c4st c4old c4new).trace =
      [Op.create ⟨"example.com".toList, "foo".toList, "A".toList, 60, "2.2.2.2".toList, 0⟩] ∧
    (applyUpdatePair (pureClient (.ok []) (fun z => .ok [])
        (fun r => some ⟨some 2302⟩) (fun i r => none) (fun i => none))
        c4zones c4st c4old c4new).errs = [] := by
  have h := update_fallback_spec (.ok []) (fun z => .ok []) (fun r => some ⟨some 2302⟩)
    (fun i r => none) (fun i => none) c4zones c4st c4old c4new "example.com".toList []
    [] "foo".toList ["2.2.2.2".toList] (by rfl) (by rfl) (by rfl) (by decide)
    (by decide) (by decide) (by decide)
  rcases h with ⟨h1, h2⟩
  refine ⟨?_, ?_⟩
  · rw [h1]
    decide
  · rw [h2]
    decide

/-! ## Claim C9 -/

theorem recordsLoop_pure (fz : Except GoErr (List GoStr))
    (fr2 : GoStr → List NameserverRecord)
    (fc : RecordRequest → Option GoErr) (fu : GoStr → RecordRequest → Option GoErr)
    (fd : GoStr → Option GoErr) :
    ∀ (zs : List GoStr) (acc : List Endpoint),
      recordsLoop (pureClient fz (fun z => .ok (fr2 z)) fc fu fd) zs () acc =
        (.ok (acc ++ zs.flatMap (fun z => (fr2 z).map (recordEndpoint z))), ()) := by
  intro zs
  induction zs with
  | nil => intro acc; simp [recordsLoop]
  | cons z rest ih =>
    intro acc
    have hstep : recordsLoop (pureClient fz (fun z => .ok (fr2 z)) fc fu fd) (z :: rest) () acc =
        recordsLoop (pureClient fz (fun z => .ok (fr2 z)) fc fu fd) rest ()
          (acc ++ (fr2 z).map (fun r => recordEndpoint z r)) := rfl
    rw [hstep, ih, List.flatMap_cons, List.append_assoc]

/-- C9: `Records` returns exactly one single-target endpoint per live remote
record across all zones, in zone order then snapshot order — records sharing
name and type are never merged — with each endpoint's DNS name formed by
joining the record's relative name and its zone with `"."`, and the type,
content and TTL copied verbatim from the record. -/
theorem listRecords_spec (fc : RecordRequest → Option GoErr)
    (fu : GoStr → RecordRequest → Option GoErr) (fd : GoStr → Option GoErr)
    (zs : List GoStr) (fr2 : GoStr → List NameserverRecord) :
    listRecords (pureClient (.ok zs) (fun z => .ok (fr2 z)) fc fu fd) () =
      (.ok (zs.flatMap (fun z => (fr2 z).map
        (fun r => (⟨r.name ++ '.' :: z, r.type, [r.content], r.ttl⟩ : Endpoint)))), ()) ∧
    ∀ ep ∈ zs.flatMap (fun z => (fr2 z).map
        (fun r => (⟨r.name ++ '.' :: z, r.type, [r.content], r.ttl⟩ : Endpoint))),
      ep.targets.length = 1 := by
  constructor
  · have hstep : listRecords (pureClient (.ok zs) (fun z => .ok (fr2 z)) fc fu fd) () =
        recordsLoop (pureClient (.ok zs) (fun z => .ok (fr2 z)) fc fu fd) zs () [] := rfl
    rw [hstep, recordsLoop_pure (.ok zs) fr2 fc fu fd zs []]
    rfl
  · intro ep hep
    rw [List.mem_flatMap] at hep
    rcases hep with ⟨z, hz, hep⟩
    rw [List.mem_map] at hep
    rcases hep with ⟨r, hr, rfl⟩
    rfl

end Inwx
